import Mathlib

/-!
Verification development for the lizardfs client-side read pipeline sources:
the slow_file_reader utility (two revisions concatenated in
src/utils/slow_file_reader.cc, the first built around fileCopy, the second
around fileRead) and the public mount read interface declared in
src/src/mount/readdata.h.  C++ long values are embedded as Int, uint32_t
values as Nat, double values as Rat (exact arithmetic; none of the settled
claims depends on floating-point rounding), std::string as List Char or
String, and streams as explicit state.
-/

/-! ### Options store of slow_file_reader.cc

Both revisions of the utility declare the same option fields (the second adds
only an ostream handle, which carries no data relevant to any claim).  The
store is a lazily created mutable singleton in the source
(Options::getInstance, slow_file_reader.cc lines 40-61 and 364-386); the
embedding makes the state explicit by passing the current store value around.
-/

structure Options where
  chunkSize : Int
  chunksMaxCount : Int
  source : String
  destination : String
  showProgress : Bool
  querySize : Int
  timeoutSeconds : Rat
  waitingTimeMilliseconds : Int
deriving DecidableEq

/-- The value built by the protected Options constructor:
chunkSize 64 * 1 << 20 = 67108864 (64 MiB), chunksMaxCount -1,
source /dev/urandom, destination /dev/null, showProgress true,
querySize -1, timeoutSeconds -1, waitingTimeMilliseconds 0. -/
def defaultOptions : Options :=
  { chunkSize := 67108864
    chunksMaxCount := -1
    source := "/dev/urandom"
    destination := "/dev/null"
    showProgress := true
    querySize := -1
    timeoutSeconds := -1
    waitingTimeMilliseconds := 0 }

/-- MAXFLOAT (FLT_MAX) promoted to double, exactly 2^128 - 2^104. -/
def maxFloatVal : Rat := 340282346638528859811704183484516925440

/-- INT64_MAX. -/
def int64MaxVal : Int := 9223372036854775807

/-- processOptions of the first revision (slow_file_reader.cc lines 89-100):
a missing querySize defaults to the source file size, a missing
chunksMaxCount to querySize / chunkSize (C++ long division truncates toward
zero), a missing timeoutSeconds to MAXFLOAT.  It mutates the global Options
singleton; the embedding passes the store explicitly. -/
def processOptionsV1 (fileSize : Int) (o : Options) : Options :=
  let o1 := if o.querySize = -1 then { o with querySize := fileSize } else o
  let o2 :=
    if o1.chunksMaxCount = -1 then
      { o1 with chunksMaxCount := Int.tdiv o1.querySize o1.chunkSize }
    else o1
  if o2.timeoutSeconds = -1 then { o2 with timeoutSeconds := maxFloatVal } else o2

/-- processOptions of the second revision (slow_file_reader.cc lines 391-402):
identical except that a missing querySize defaults to INT64_MAX. -/
def processOptionsV2 (o : Options) : Options :=
  let o1 := if o.querySize = -1 then { o with querySize := int64MaxVal } else o
  let o2 :=
    if o1.chunksMaxCount = -1 then
      { o1 with chunksMaxCount := Int.tdiv o1.querySize o1.chunkSize }
    else o1
  if o2.timeoutSeconds = -1 then { o2 with timeoutSeconds := maxFloatVal } else o2

/-! ### readNumber and dehumanize -/

/-- Value of a list of decimal digit characters, most significant first. -/
def digitsVal (l : List Char) : Int :=
  l.foldl (fun acc c => acc * 10 + (c.toNat - 48 : Nat)) 0

/-- readNumber (slow_file_reader.cc lines 132-135 and 435-438) calls strtod
and ignores the end pointer.  The embedding models strtod on the input domain
exercised by the claims settled here: the value of the maximal leading run of
decimal digits (strtod features outside that domain, such as signs,
fractions, exponents, hex, inf and nan, are not reached by any claim, and the
claims bound the digit value so the double-to-long round trip is exact). -/
def readNumber (s : List Char) : Int :=
  digitsVal (s.takeWhile Char.isDigit)

/-- In ECMAScript regexes (the std::regex default used by dehumanize), the
dot matches every character except the four line terminators. -/
def dotOk (c : Char) : Bool :=
  !(c == '\n' || c == '\r' || c == '\u2028' || c == '\u2029')

/-- matchRev ok pre rest decides whether rest starts with pre and every
remaining character satisfies ok.  Applied to reversed strings it decides
full-match of a regex of the form X*(suffix)$ where X is the character class
decided by ok: the string full-matches iff it splits into a front of
X-characters followed by the literal suffix. -/
def matchRev (ok : Char → Bool) : List Char → List Char → Bool
  | [], rest => rest.all ok
  | _ :: _, [] => false
  | x :: xs, y :: ys => x == y && matchRev ok xs ys

/-- Full regex_match of a pattern [class]*(suffix)$ against s: s ends with
the literal suffix and every character before it satisfies the class. -/
def matchTail (ok : Char → Bool) (suf s : List Char) : Bool :=
  matchRev ok suf.reverse s.reverse

/-- Full match of the pattern .*(K|KiB)$ used by dehumanize. -/
def regexDotStarK (s : List Char) : Bool :=
  matchTail dotOk ['K'] s || matchTail dotOk ['K', 'i', 'B'] s

/-- Full match of the pattern .*(M|MiB)$ used by dehumanize. -/
def regexDotStarM (s : List Char) : Bool :=
  matchTail dotOk ['M'] s || matchTail dotOk ['M', 'i', 'B'] s

/-- Full match of the pattern ,*(G|GiB)$ used by dehumanize: note the comma
in the source where the other two branches have a dot, so everything before
the G suffix must be a comma. -/
def regexCommaStarG (s : List Char) : Bool :=
  matchTail (fun c => c == ',') ['G'] s || matchTail (fun c => c == ',') ['G', 'i', 'B'] s

/-- dehumanize (slow_file_reader.cc lines 137-151 and 440-454, identical in
both revisions): reads the number, then scales by 1 << 10 if the whole
string matches .*(K|KiB)$, else by 1 << 20 on .*(M|MiB)$, else by 1 << 30 on
,*(G|GiB)$, else leaves it unscaled. -/
def dehumanize (s : List Char) : Int :=
  let result := readNumber s
  if regexDotStarK s then result * 1024
  else if regexDotStarM s then result * 1048576
  else if regexCommaStarG s then result * 1073741824
  else result

/-! ### fileLength -/

/-- An ifstream reduced to the state fileLength touches: the stream length
and the get position (the source function holds fileMutex throughout, so the
embedding is the sequential body). -/
structure IStreamPos where
  length : Nat
  gpos : Nat
deriving DecidableEq

/-- fileLength (slow_file_reader.cc lines 153-161): remember tellg, seek to
the end, read tellg as the length, seek back to the remembered position,
return the length together with the resulting stream state. -/
def fileLength (fs : IStreamPos) : Int × IStreamPos :=
  let currentPos : Int := fs.gpos
  let fs1 := { fs with gpos := fs.length }
  let len : Int := fs1.gpos
  let fs2 := { fs1 with gpos := currentPos.toNat }
  (len, fs2)

/-! ### The fileRead and fileCopy loops

The source stream is embedded as its length L in bytes (reads are sequential
from position totalRead; ifs.read of chunkSize bytes delivers
min chunkSize (L - pos) bytes and leaves the stream failed exactly when it
delivered fewer than asked, which is how the do-while condition sees it).
The destination stream (default /dev/null) is modelled as always writable,
matching the while condition's ofs conjunct never failing.  Wall-clock time
is external input: ds k is the gross elapsed time of iteration k (read plus
sleep), accumulated into totalElapsed exactly as the source does.  The fuel
argument bounds the recursion; none models fuel exhaustion and the theorems
prove the chosen fuel is never exhausted. -/

/-- Sum of the first k per-iteration gross elapsed times. -/
def grossSum (ds : Nat → Rat) : Nat → Rat
  | 0 => 0
  | k + 1 => grossSum ds k + ds k

/-- The do-while loop of fileRead (slow_file_reader.cc lines 479-511): break
with result true when totalElapsed exceeds timeoutSeconds or chunksCount
(post-incremented) exceeds chunksMaxCount; otherwise read one chunk,
accumulate bytes and elapsed time, and continue while the stream is good.
T, M and c are the timeoutSeconds, chunksMaxCount and chunkSize values the
loop reads from the options store; then fuel, the iteration index k feeding
ds, chunksCount, totalElapsed and totalRead.  Returns the result flag and
totalRead. -/
def fileReadLoop (T : Rat) (M : Int) (c L : Nat) (ds : Nat → Rat) :
    Nat → Nat → Int → Rat → Nat → Option (Bool × Nat)
  | 0, _, _, _, _ => none
  | fuel + 1, k, chunksCount, totalElapsed, totalRead =>
    if T < totalElapsed then some (true, totalRead)
    else if M < chunksCount then some (true, totalRead)
    else if min c (L - totalRead) = c then
      fileReadLoop T M c L ds fuel (k + 1) (chunksCount + 1) (totalElapsed + ds k)
        (totalRead + min c (L - totalRead))
    else some (false, totalRead + min c (L - totalRead))

/-- Fuel that the loop never exhausts: the loop leaves by a short read no
later than iteration L / chunkSize and by the budget check no later than
iteration chunksMaxCount + 1. -/
def fileReadFuel (o : Options) (L : Nat) : Nat :=
  L / o.chunkSize.toNat + o.chunksMaxCount.toNat + 2

/-- fileRead (slow_file_reader.cc lines 458-526) on options store o (the
value in effect when fileRead starts, i.e. after parseArguments and
processOptions), source stream of L bytes, and per-iteration gross times ds:
result flag and final totalRead. -/
def fileRead (o : Options) (L : Nat) (ds : Nat → Rat) : Option (Bool × Nat) :=
  fileReadLoop o.timeoutSeconds o.chunksMaxCount o.chunkSize.toNat L ds
    (fileReadFuel o L) 0 0 0 0

/-- Exit status of main in the second revision (slow_file_reader.cc lines
578-586) given the options store o in effect when fileRead begins: 1 when
fileRead returns false, else 0. -/
def mainExitCode (o : Options) (L : Nat) (ds : Nat → Rat) : Option Int :=
  (fileRead o L ds).map (fun r => if r.1 then 0 else 1)

/-- The do-while loop of fileCopy (slow_file_reader.cc lines 192-237): same
limit checks as fileReadLoop; each iteration reads one chunk at the current
offset and writes it to the destination (a sink here), so offset and
totalRead advance together.  Returns the final totalRead. -/
def fileCopyLoop (T : Rat) (M : Int) (c L : Nat) (ds : Nat → Rat) :
    Nat → Nat → Int → Rat → Nat → Option Nat
  | 0, _, _, _, _ => none
  | fuel + 1, k, chunksCount, totalElapsed, totalRead =>
    if T < totalElapsed then some totalRead
    else if M < chunksCount then some totalRead
    else if min c (L - totalRead) = c then
      fileCopyLoop T M c L ds fuel (k + 1) (chunksCount + 1) (totalElapsed + ds k)
        (totalRead + min c (L - totalRead))
    else some (totalRead + min c (L - totalRead))

/-- fileCopy (slow_file_reader.cc lines 165-253): measures the source length
(fileSize = L), applies the first revision's processOptions with it, runs the
copy loop, and returns fileSize == totalRead together with totalRead. -/
def fileCopy (o : Options) (L : Nat) (ds : Nat → Rat) : Option (Bool × Nat) :=
  let o2 := processOptionsV1 (L : Int) o
  (fileCopyLoop o2.timeoutSeconds o2.chunksMaxCount o2.chunkSize.toNat L ds
      (L / o2.chunkSize.toNat + o2.chunksMaxCount.toNat + 2) 0 0 0 0).map
    (fun totalRead => (L == totalRead, totalRead))

/-! ### The public mount read interface (src/src/mount/readdata.h)

The header gives declarations only; their C-level signatures are embedded as
data so that signature-level claims are statable. -/

/-- C types occurring in the readdata.h declarations. -/
inductive CType where
  | void
  | uint32_t
  | uint64_t
  | boolTy
  | doubleTy
  | ptr (t : CType)
  | ref (t : CType)
  | named (n : String)
deriving DecidableEq

/-- A declared C function signature: name, parameter types in order, return
type. -/
structure CFunDecl where
  name : String
  args : List CType
  ret : CType
deriving DecidableEq

/-- A raw untyped pointer in C is exactly void*. -/
def isUntypedPtr (t : CType) : Bool :=
  t == CType.ptr CType.void

/-- Declaration void* read_data_new(uint32_t inode) (readdata.h line 34). -/
def read_data_new_decl : CFunDecl :=
  { name := "read_data_new", args := [CType.uint32_t], ret := CType.ptr CType.void }

/-- Declaration void read_data_end(void *rr) (readdata.h line 35). -/
def read_data_end_decl : CFunDecl :=
  { name := "read_data_end", args := [CType.ptr CType.void], ret := CType.void }

/-- Declaration int read_data(void *rr, uint64_t offset, uint32_t size,
ReadCache::Result &ret) (readdata.h line 36). -/
def read_data_decl : CFunDecl :=
  { name := "read_data"
    args := [CType.ptr CType.void, CType.uint64_t, CType.uint32_t,
      CType.ref (CType.named "ReadCache::Result")]
    ret := CType.named "int" }

/-- Declaration of read_data_init (readdata.h lines 38-46): nine parameters
in the declared order, seven uint32_t then a bool then a double. -/
def read_data_init_decl : CFunDecl :=
  { name := "read_data_init"
    args := [CType.uint32_t, CType.uint32_t, CType.uint32_t, CType.uint32_t,
      CType.uint32_t, CType.uint32_t, CType.uint32_t, CType.boolTy, CType.doubleTy]
    ret := CType.void }

/-- Declaration uint32_t read_data_get_wave_read_timeout_ms() (readdata.h
line 28): note the empty parameter list, so the value is fetched from
process-global state rather than from a configuration handle. -/
def read_data_get_wave_read_timeout_ms_decl : CFunDecl :=
  { name := "read_data_get_wave_read_timeout_ms", args := [], ret := CType.uint32_t }

/-- Declaration uint32_t read_data_get_connect_timeout_ms() (readdata.h
line 29), again with an empty parameter list. -/
def read_data_get_connect_timeout_ms_decl : CFunDecl :=
  { name := "read_data_get_connect_timeout_ms", args := [], ret := CType.uint32_t }

/-- Declaration uint32_t read_data_get_total_read_timeout_ms() (readdata.h
line 30), again with an empty parameter list. -/
def read_data_get_total_read_timeout_ms_decl : CFunDecl :=
  { name := "read_data_get_total_read_timeout_ms", args := [], ret := CType.uint32_t }

/-- Modelled from the spec: the definition of read_data_init's storage lives
in mount/readdata.cc, which is not under src/; following section 6 of the
spec, init(config) records the nine configuration options process-wide and
the getters read them back.  The fields keep the header's parameter names
(uint32_t embedded as Nat, double as Rat). -/
structure ReadDataConfig where
  retries : Nat
  chunkserverRoundTripTime_ms : Nat
  chunkserverConnectTimeout_ms : Nat
  chunkServerWaveReadTimeout_ms : Nat
  chunkserverTotalReadTimeout_ms : Nat
  cache_expiration_time_ms : Nat
  readahead_max_window_size_kB : Nat
  prefetchXorStripes : Bool
  bandwidth_overuse : Rat
deriving DecidableEq

/-- Modelled from the spec: read_data_init (declared readdata.h lines 38-46,
defined in the absent readdata.cc) stores its nine arguments, in the
declared order, as the process-wide configuration. -/
def read_data_init (retries chunkserverRoundTripTime_ms chunkserverConnectTimeout_ms
    chunkServerWaveReadTimeout_ms chunkserverTotalReadTimeout_ms
    cache_expiration_time_ms readahead_max_window_size_kB : Nat)
    (prefetchXorStripes : Bool) (bandwidth_overuse : Rat) : ReadDataConfig :=
  { retries := retries
    chunkserverRoundTripTime_ms := chunkserverRoundTripTime_ms
    chunkserverConnectTimeout_ms := chunkserverConnectTimeout_ms
    chunkServerWaveReadTimeout_ms := chunkServerWaveReadTimeout_ms
    chunkserverTotalReadTimeout_ms := chunkserverTotalReadTimeout_ms
    cache_expiration_time_ms := cache_expiration_time_ms
    readahead_max_window_size_kB := readahead_max_window_size_kB
    prefetchXorStripes := prefetchXorStripes
    bandwidth_overuse := bandwidth_overuse }

/-- Modelled from the spec: getter declared at readdata.h line 29, reading
the stored connect timeout (state passed explicitly here). -/
def read_data_get_connect_timeout_ms (cfg : ReadDataConfig) : Nat :=
  cfg.chunkserverConnectTimeout_ms

/-- Modelled from the spec: getter declared at readdata.h line 28, reading
the stored per-wave read timeout. -/
def read_data_get_wave_read_timeout_ms (cfg : ReadDataConfig) : Nat :=
  cfg.chunkServerWaveReadTimeout_ms

/-- Modelled from the spec: getter declared at readdata.h line 30, reading
the stored total read timeout. -/
def read_data_get_total_read_timeout_ms (cfg : ReadDataConfig) : Nat :=
  cfg.chunkserverTotalReadTimeout_ms

/-! ### Spec-modelled wave arbitration and total-read deadline

The WaveScheduler, StripeReconstructor and the read call's deadline loop live
in mount/readdata.cc, which is not under src/; the following definitions are
modelled from the spec (sections 4.1, 4.2, 4.3 and 5). -/

/-- Modelled from the spec: a data source for one sub-range is either one
WaveAttempt against a holder or the completed stripe reconstruction. -/
inductive DataSource where
  | waveAttempt (holder : Nat)
  | stripeReconstruction
deriving DecidableEq

/-- Modelled from the spec: one completed fetch for a sub-range, carrying its
source and its payload bytes. -/
structure Completion where
  src : DataSource
  bytes : List Nat
deriving DecidableEq

/-- Modelled from the spec: the sub-range is pending until a first completion
is chosen, after which it is served by exactly that completion. -/
inductive SubRangeState where
  | pending
  | served (c : Completion)
deriving DecidableEq

/-- Modelled from the spec (sections 4.2, 4.3, 5): the first completion wins;
once a winner is chosen, every later completion is abandoned and its bytes
are discarded. -/
def deliver : SubRangeState → Completion → SubRangeState
  | SubRangeState.pending, c => SubRangeState.served c
  | SubRangeState.served c0, _ => SubRangeState.served c0

/-- Modelled from the spec: feed an arbitrary interleaving of completions
(the order in which racing attempts finish) to the sub-range arbiter. -/
def runCompletions (s : SubRangeState) (cs : List Completion) : SubRangeState :=
  cs.foldl deliver s

/-- Modelled from the spec (section 7 taxonomy): the error a read call fails
with when its aggregate wall-clock time exceeds the total-read timeout. -/
inductive ReadError where
  | totalTimeout
deriving DecidableEq

/-- Modelled from the spec (sections 4.1, 4.2, 5): with every holder
permanently unresponsive, each wave burns one per-wave timeout and fails;
before each wave the elapsed time is checked against the total-read timeout
and the read fails with TotalTimeoutError once it is exceeded.  Fuel bounds
the recursion; none models an indefinite hang and is proved unreachable. -/
def wavesLoop (totalTimeout waveTimeout : Nat) : Nat → Nat → Option Nat
  | 0, _ => none
  | fuel + 1, elapsed =>
    if totalTimeout < elapsed then some elapsed
    else wavesLoop totalTimeout waveTimeout fuel (elapsed + waveTimeout)

/-- Modelled from the spec: a read call whose data sources never answer,
returning the fatal error and the wall-clock time at which it is raised. -/
def readUnresponsive (totalTimeout waveTimeout : Nat) : Option (ReadError × Nat) :=
  (wavesLoop totalTimeout waveTimeout (totalTimeout + 2) 0).map
    (fun e => (ReadError.totalTimeout, e))

/-! ### Theorems -/

/-- Once a sub-range is served, every later completion is discarded. -/
theorem runCompletions_served (c0 : Completion) :
    ∀ cs : List Completion, runCompletions (SubRangeState.served c0) cs = SubRangeState.served c0 := by
  intro cs
  induction cs with
  | nil => rfl
  | cons c rest ih => exact ih

/-- C1: for every logical read sub-range, exactly one data source (one
WaveAttempt success or one completed stripe reconstruction) supplies the
returned bytes: whatever interleaving of racing completions arrives, the
arbiter serves the sub-range with exactly the first completion, and every
other racing source's bytes are discarded. -/
theorem c1_at_most_one_source (c : Completion) (rest : List Completion) :
    runCompletions SubRangeState.pending (c :: rest) = SubRangeState.served c := by
  show runCompletions (SubRangeState.served c) rest = SubRangeState.served c
  exact runCompletions_served c rest

/-- The wave loop with unresponsive holders reports the elapsed time at
which the deadline check fires, within one wave timeout past the deadline. -/
theorem wavesLoop_sound (tt wt : Nat) :
    ∀ n elapsed, elapsed ≤ tt + wt → tt < elapsed + n * wt →
      ∃ e, wavesLoop tt wt (n + 1) elapsed = some e ∧ e ≤ tt + wt := by
  intro n
  induction n with
  | zero =>
    intro elapsed h2 h3
    refine ⟨elapsed, ?_, h2⟩
    simp only [wavesLoop]
    rw [if_pos (by omega)]
  | succ n ih =>
    intro elapsed h2 h3
    by_cases hlt : tt < elapsed
    · refine ⟨elapsed, ?_, h2⟩
      simp only [wavesLoop]
      rw [if_pos hlt]
    · have hle : elapsed ≤ tt := by omega
      have hmul : (n + 1) * wt = n * wt + wt := by ring
      obtain ⟨e, he, hb⟩ := ih (elapsed + wt) (by omega) (by omega)
      refine ⟨e, ?_, hb⟩
      simp only [wavesLoop]
      rw [if_neg hlt]
      exact he

/-- C2: a read call whose data sources are permanently unresponsive fails
with the total-timeout error (it does not hang: the loop provably reaches the
failing check), at an aggregate wall-clock time at most the configured
total-read timeout plus one wave timeout of scheduling slack. -/
theorem c2_total_timeout_terminates (cfg : ReadDataConfig)
    (h : 1 ≤ read_data_get_wave_read_timeout_ms cfg) :
    ∃ e, readUnresponsive (read_data_get_total_read_timeout_ms cfg)
        (read_data_get_wave_read_timeout_ms cfg) = some (ReadError.totalTimeout, e) ∧
      e ≤ read_data_get_total_read_timeout_ms cfg + read_data_get_wave_read_timeout_ms cfg := by
  have hmul : (read_data_get_total_read_timeout_ms cfg + 1) * 1 ≤
      (read_data_get_total_read_timeout_ms cfg + 1) * read_data_get_wave_read_timeout_ms cfg :=
    Nat.mul_le_mul_left _ h
  obtain ⟨e, he, hb⟩ := wavesLoop_sound (read_data_get_total_read_timeout_ms cfg)
    (read_data_get_wave_read_timeout_ms cfg)
    (read_data_get_total_read_timeout_ms cfg + 1) 0 (by omega) (by omega)
  refine ⟨e, ?_, hb⟩
  unfold readUnresponsive
  rw [show read_data_get_total_read_timeout_ms cfg + 2 =
    (read_data_get_total_read_timeout_ms cfg + 1) + 1 from rfl, he]
  rfl

/-- Witness for C2 at a concrete configuration: total-read timeout 200 ms,
wave timeout 50 ms. -/
theorem c2_total_timeout_terminates_witness :
    ∃ e, readUnresponsive
        (read_data_get_total_read_timeout_ms (read_data_init 5 100 20 50 200 1000 1024 true 1))
        (read_data_get_wave_read_timeout_ms (read_data_init 5 100 20 50 200 1000 1024 true 1)) =
        some (ReadError.totalTimeout, e) ∧
      e ≤ read_data_get_total_read_timeout_ms (read_data_init 5 100 20 50 200 1000 1024 true 1) +
          read_data_get_wave_read_timeout_ms (read_data_init 5 100 20 50 200 1000 1024 true 1) :=
  c2_total_timeout_terminates (read_data_init 5 100 20 50 200 1000 1024 true 1) (by decide)

/-- C4: the process-wide initialization takes exactly nine configuration
options in the declared order (seven uint32_t values, then a bool, then a
double), and each positional argument is recorded as the corresponding
configuration field: retry count, round-trip-time estimate, connect timeout,
per-wave read timeout, total-read timeout, cache expiry, maximum readahead
window, XOR-stripe-prefetch flag, bandwidth-overuse ratio. -/
theorem c4_read_data_init_nine_options :
    read_data_init_decl.args = [CType.uint32_t, CType.uint32_t, CType.uint32_t, CType.uint32_t,
        CType.uint32_t, CType.uint32_t, CType.uint32_t, CType.boolTy, CType.doubleTy] ∧
    read_data_init_decl.args.length = 9 ∧
    ∀ (retries rtt cto wto tto ce w : Nat) (p : Bool) (b : Rat),
      (read_data_init retries rtt cto wto tto ce w p b).retries = retries ∧
      (read_data_init retries rtt cto wto tto ce w p b).chunkserverRoundTripTime_ms = rtt ∧
      (read_data_init retries rtt cto wto tto ce w p b).chunkserverConnectTimeout_ms = cto ∧
      (read_data_init retries rtt cto wto tto ce w p b).chunkServerWaveReadTimeout_ms = wto ∧
      (read_data_init retries rtt cto wto tto ce w p b).chunkserverTotalReadTimeout_ms = tto ∧
      (read_data_init retries rtt cto wto tto ce w p b).cache_expiration_time_ms = ce ∧
      (read_data_init retries rtt cto wto tto ce w p b).readahead_max_window_size_kB = w ∧
      (read_data_init retries rtt cto wto tto ce w p b).prefetchXorStripes = p ∧
      (read_data_init retries rtt cto wto tto ce w p b).bandwidth_overuse = b :=
  ⟨rfl, rfl, fun _ _ _ _ _ _ _ _ _ => ⟨rfl, rfl, rfl, rfl, rfl, rfl, rfl, rfl, rfl⟩⟩

/-- C5 counterexample: initialization accepts a configuration whose connect
timeout (500 ms) is not strictly shorter than its per-wave read timeout
(100 ms); nothing in the interface constrains the two values, so the claim
fails for this initialized configuration. -/
theorem c5_connect_not_shorter :
    ¬ (read_data_get_connect_timeout_ms (read_data_init 5 200 500 100 2000 1000 1024 true 1) <
       read_data_get_wave_read_timeout_ms (read_data_init 5 200 500 100 2000 1000 1024 true 1)) := by
  decide

/-- C5 amended: the connection-establishment timeout is a configuration
parameter distinct from the per-wave read timeout (a separate positional
init argument read back by a separate getter), and it is strictly shorter
than the per-wave timeout exactly when the values supplied to init are so
ordered; the interface itself does not enforce the ordering. -/
theorem c5_connect_distinct_parameter (retries rtt cto wto tto ce w : Nat)
    (p : Bool) (b : Rat) :
    read_data_get_connect_timeout_ms (read_data_init retries rtt cto wto tto ce w p b) = cto ∧
    read_data_get_wave_read_timeout_ms (read_data_init retries rtt cto wto tto ce w p b) = wto ∧
    (cto < wto →
      read_data_get_connect_timeout_ms (read_data_init retries rtt cto wto tto ce w p b) <
      read_data_get_wave_read_timeout_ms (read_data_init retries rtt cto wto tto ce w p b)) :=
  ⟨rfl, rfl, fun h => h⟩

/-- Witness for the amended C5 at connect timeout 200 ms and wave timeout
500 ms. -/
theorem c5_connect_distinct_parameter_witness :
    read_data_get_connect_timeout_ms (read_data_init 5 100 200 500 2000 1000 1024 true 1) <
    read_data_get_wave_read_timeout_ms (read_data_init 5 100 200 500 2000 1000 1024 true 1) :=
  (c5_connect_distinct_parameter 5 100 200 500 2000 1000 1024 true 1).2.2 (by decide)

/-- C6 counterexample: configuration is not an immutable value constructed at
initialization: processOptions rewrites the timeout field of the global
Options store after construction (from -1 to MAXFLOAT), and the mount
interface's configuration getter is declared with an empty parameter list,
so components fetch configuration from process-global state rather than
receiving a configuration handle. -/
theorem c6_config_mutated_after_construction :
    (processOptionsV2 defaultOptions).timeoutSeconds ≠ defaultOptions.timeoutSeconds ∧
    read_data_get_wave_read_timeout_ms_decl.args = [] := by
  exact ⟨by decide, rfl⟩

/-- C6 amended: configuration lives in mutable global state read ad hoc: the
utility's Options singleton is constructed with sentinel defaults and
rewritten in place by processOptions before fileCopy and fileRead read it
(querySize -1 becomes INT64_MAX in the second revision and the measured file
size in the first), and the mount interface's configuration getters take no
configuration handle at all, reading process-global state instead. -/
theorem c6_global_mutable_config :
    defaultOptions.querySize = -1 ∧
    (processOptionsV2 defaultOptions).querySize = 9223372036854775807 ∧
    (processOptionsV1 50 defaultOptions).querySize = 50 ∧
    read_data_get_connect_timeout_ms_decl.args = [] ∧
    read_data_get_total_read_timeout_ms_decl.args = [] := by
  refine ⟨rfl, by decide, by decide, rfl, rfl⟩

/-- C7 counterexample: the session handle returned by read_data_new is
exactly void*, a raw untyped pointer, so the claim that the public interface
exposes a strongly-typed registry index instead of a raw untyped pointer is
false for this interface. -/
theorem c7_handle_is_untyped_pointer :
    ¬ (isUntypedPtr read_data_new_decl.ret = false) := by
  decide

/-- C7 amended: the session handle exposed at the public interface is a raw
untyped pointer: read_data_new returns void* and read_data_end and read_data
take the handle back as their void* first parameter; the strongly-typed
arena-indexed handle is a proposed redesign in the spec's design notes, not
the declared interface. -/
theorem c7_interface_uses_void_pointer_handle :
    read_data_new_decl.ret = CType.ptr CType.void ∧
    read_data_end_decl.args = [CType.ptr CType.void] ∧
    read_data_decl.args.head? = some (CType.ptr CType.void) :=
  ⟨rfl, rfl, rfl⟩

/-- C10: fileLength returns the stream's length and leaves the stream's get
position exactly as it was before the call. -/
theorem c10_fileLength_preserves_position (fs : IStreamPos) :
    ((fileLength fs).2).gpos = fs.gpos ∧ (fileLength fs).1 = (fs.length : Int) := by
  refine ⟨?_, rfl⟩
  simp [fileLength]

/-- takeWhile stops exactly at the first character failing the predicate. -/
theorem takeWhile_append_head_false {p : Char → Bool} :
    ∀ (l : List Char) (h : Char) (t : List Char), (∀ c ∈ l, p c = true) → p h = false →
      (l ++ h :: t).takeWhile p = l := by
  intro l
  induction l with
  | nil =>
    intro h t _ hh
    simp [List.takeWhile_cons, hh]
  | cons x xs ih =>
    intro h t hall hh
    have hx : p x = true := hall x (List.mem_cons_self x xs)
    simp only [List.cons_append, List.takeWhile_cons, hx, if_true]
    rw [ih h t (fun c hc => hall c (List.mem_cons_of_mem x hc)) hh]

/-- readNumber of a digit run followed by a non-digit character is the value
of the digit run. -/
theorem readNumber_digits_append (ds : List Char) (hdig : ∀ c ∈ ds, c.isDigit = true)
    (h : Char) (t : List Char) (hh : h.isDigit = false) :
    readNumber (ds ++ h :: t) = digitsVal ds := by
  unfold readNumber
  rw [takeWhile_append_head_false ds h t hdig hh]

/-- matchRev on a list that starts with the sought front reduces to checking
the remainder against the character class. -/
theorem matchRev_append (ok : Char → Bool) :
    ∀ pre rest : List Char, matchRev ok pre (pre ++ rest) = rest.all ok := by
  intro pre
  induction pre with
  | nil => intro rest; rfl
  | cons x xs ih =>
    intro rest
    simp [matchRev, ih]

/-- A string that is some front followed by the literal suffix matches the
pattern [class]*(suffix)$ exactly when the whole front is in the class. -/
theorem matchTail_append_self (ok : Char → Bool) (pre suf : List Char) :
    matchTail ok suf (pre ++ suf) = pre.reverse.all ok := by
  unfold matchTail
  rw [List.reverse_append]
  exact matchRev_append ok suf.reverse pre.reverse

/-- A pattern whose literal suffix ends in a cannot match a string ending in
a different character b. -/
theorem matchTail_ne_last (ok : Char → Bool) (a b : Char) (sufTail pre : List Char)
    (hab : (a == b) = false) :
    matchTail ok (sufTail ++ [a]) (pre ++ [b]) = false := by
  unfold matchTail
  rw [List.reverse_append, List.reverse_append]
  simp [matchRev, hab]

/-- A pattern with literal suffix xiB cannot match a string ending in yiB
when x and y differ. -/
theorem matchTail_xiB_ne (ok : Char → Bool) (x y : Char) (pre : List Char)
    (hxy : (x == y) = false) :
    matchTail ok [x, 'i', 'B'] (pre ++ [y, 'i', 'B']) = false := by
  unfold matchTail
  rw [List.reverse_append]
  simp [matchRev, hxy]

/-- Decimal digits are matched by the regex dot (they are not line
terminators). -/
theorem dotOk_of_digit {c : Char} (h : c.isDigit = true) : dotOk c = true := by
  have hn : c ≠ '\n' := by rintro rfl; exact absurd h (by decide)
  have hr : c ≠ '\r' := by rintro rfl; exact absurd h (by decide)
  have h8 : c ≠ '\u2028' := by rintro rfl; exact absurd h (by decide)
  have h9 : c ≠ '\u2029' := by rintro rfl; exact absurd h (by decide)
  simp [dotOk, hn, hr, h8, h9]

/-- The reverse of a run of digits is all matched by the dot class. -/
theorem digits_all_dotOk (ds : List Char) (hdig : ∀ c ∈ ds, c.isDigit = true) :
    ds.reverse.all dotOk = true := by
  rw [List.all_eq_true]
  intro c hc
  exact dotOk_of_digit (hdig c (List.mem_reverse.mp hc))

/-- A nonempty run of digits is not a run of commas. -/
theorem digits_not_all_comma (ds : List Char) (hne : ds ≠ [])
    (hdig : ∀ c ∈ ds, c.isDigit = true) :
    ds.reverse.all (fun c => c == ',') = false := by
  rcases ds with _ | ⟨d, tl⟩
  · exact absurd rfl hne
  · have hdd : d.isDigit = true := hdig d (List.mem_cons_self d tl)
    have hd : (d == ',') = false := by
      cases hbeq : d == ','
      · rfl
      · exact absurd hdd (by rw [eq_of_beq hbeq]; decide)
    cases hall : (d :: tl).reverse.all (fun c => c == ',')
    · rfl
    · have hmem := List.all_eq_true.mp hall d (List.mem_reverse.mpr (List.mem_cons_self d tl))
      rw [hd] at hmem
      exact absurd hmem (by decide)


/-- C9: dehumanize scales a digit string suffixed with K or KiB by 2^10 and
one suffixed with M or MiB by 2^20, but leaves a digit string suffixed with
G or GiB unscaled, because the gibibyte pattern ,*(G|GiB)$ (a comma where
the other patterns have a dot) only matches when every character before the
suffix is a comma.  The value bound keeps the input inside the domain where
the source's double-to-long round trip is exact and the long scaling cannot
overflow. -/
theorem c9_dehumanize_suffix_scaling (ds : List Char) (hne : ds ≠ [])
    (hdig : ∀ c ∈ ds, c.isDigit = true) (_hsz : digitsVal ds < 2 ^ 43) :
    dehumanize (ds ++ ['K']) = digitsVal ds * 2 ^ 10 ∧
    dehumanize (ds ++ ['K', 'i', 'B']) = digitsVal ds * 2 ^ 10 ∧
    dehumanize (ds ++ ['M']) = digitsVal ds * 2 ^ 20 ∧
    dehumanize (ds ++ ['M', 'i', 'B']) = digitsVal ds * 2 ^ 20 ∧
    dehumanize (ds ++ ['G']) = digitsVal ds ∧
    dehumanize (ds ++ ['G', 'i', 'B']) = digitsVal ds := by
  have hAllDot := digits_all_dotOk ds hdig
  have hNotComma := digits_not_all_comma ds hne hdig
  refine ⟨?_, ?_, ?_, ?_, ?_, ?_⟩
  · -- ds ++ K
    have hK : regexDotStarK (ds ++ ['K']) = true := by
      unfold regexDotStarK
      rw [matchTail_append_self dotOk ds ['K'], hAllDot]
      rfl
    have hr := readNumber_digits_append ds hdig 'K' [] (by decide)
    simp only [dehumanize, hK, if_true, hr]
    norm_num
  · -- ds ++ KiB
    have hK : regexDotStarK (ds ++ ['K', 'i', 'B']) = true := by
      unfold regexDotStarK
      rw [matchTail_append_self dotOk ds ['K', 'i', 'B'], hAllDot]
      simp
    have hr := readNumber_digits_append ds hdig 'K' ['i', 'B'] (by decide)
    simp only [dehumanize, hK, if_true, hr]
    norm_num
  · -- ds ++ M
    have ha : matchTail dotOk ['K'] (ds ++ ['M']) = false :=
      matchTail_ne_last dotOk 'K' 'M' [] ds (by decide)
    have hb : matchTail dotOk ['K', 'i', 'B'] (ds ++ ['M']) = false :=
      matchTail_ne_last dotOk 'B' 'M' ['K', 'i'] ds (by decide)
    have hK : regexDotStarK (ds ++ ['M']) = false := by
      unfold regexDotStarK
      rw [ha, hb]
      rfl
    have hM : regexDotStarM (ds ++ ['M']) = true := by
      unfold regexDotStarM
      rw [matchTail_append_self dotOk ds ['M'], hAllDot]
      rfl
    have hr := readNumber_digits_append ds hdig 'M' [] (by decide)
    simp only [dehumanize, hK, hM, if_true, Bool.false_eq_true, if_false, hr]
    norm_num
  · -- ds ++ MiB
    have ha : matchTail dotOk ['K'] ((ds ++ ['M', 'i']) ++ ['B']) = false :=
      matchTail_ne_last dotOk 'K' 'B' [] (ds ++ ['M', 'i']) (by decide)
    have hassocM : ds ++ ['M', 'i', 'B'] = (ds ++ ['M', 'i']) ++ ['B'] := by simp
    have ha2 : matchTail dotOk ['K'] (ds ++ ['M', 'i', 'B']) = false := by
      rw [hassocM]
      exact ha
    have hb : matchTail dotOk ['K', 'i', 'B'] (ds ++ ['M', 'i', 'B']) = false :=
      matchTail_xiB_ne dotOk 'K' 'M' ds (by decide)
    have hK : regexDotStarK (ds ++ ['M', 'i', 'B']) = false := by
      unfold regexDotStarK
      rw [ha2, hb]
      rfl
    have hM : regexDotStarM (ds ++ ['M', 'i', 'B']) = true := by
      unfold regexDotStarM
      rw [matchTail_append_self dotOk ds ['M', 'i', 'B'], hAllDot]
      simp
    have hr := readNumber_digits_append ds hdig 'M' ['i', 'B'] (by decide)
    simp only [dehumanize, hK, hM, if_true, Bool.false_eq_true, if_false, hr]
    norm_num
  · -- ds ++ G
    have ha : matchTail dotOk ['K'] (ds ++ ['G']) = false :=
      matchTail_ne_last dotOk 'K' 'G' [] ds (by decide)
    have hb : matchTail dotOk ['K', 'i', 'B'] (ds ++ ['G']) = false :=
      matchTail_ne_last dotOk 'B' 'G' ['K', 'i'] ds (by decide)
    have hc : matchTail dotOk ['M'] (ds ++ ['G']) = false :=
      matchTail_ne_last dotOk 'M' 'G' [] ds (by decide)
    have hd : matchTail dotOk ['M', 'i', 'B'] (ds ++ ['G']) = false :=
      matchTail_ne_last dotOk 'B' 'G' ['M', 'i'] ds (by decide)
    have he : matchTail (fun c => c == ',') ['G', 'i', 'B'] (ds ++ ['G']) = false :=
      matchTail_ne_last (fun c => c == ',') 'B' 'G' ['G', 'i'] ds (by decide)
    have hK : regexDotStarK (ds ++ ['G']) = false := by
      unfold regexDotStarK
      rw [ha, hb]
      rfl
    have hM : regexDotStarM (ds ++ ['G']) = false := by
      unfold regexDotStarM
      rw [hc, hd]
      rfl
    have hG : regexCommaStarG (ds ++ ['G']) = false := by
      unfold regexCommaStarG
      rw [matchTail_append_self (fun c => c == ',') ds ['G'], hNotComma, he]
      rfl
    have hr := readNumber_digits_append ds hdig 'G' [] (by decide)
    simp only [dehumanize, hK, hM, hG, Bool.false_eq_true, if_false, hr]
  · -- ds ++ GiB
    have hassoc : ds ++ ['G', 'i', 'B'] = (ds ++ ['G', 'i']) ++ ['B'] := by simp
    have ha : matchTail dotOk ['K'] ((ds ++ ['G', 'i']) ++ ['B']) = false :=
      matchTail_ne_last dotOk 'K' 'B' [] (ds ++ ['G', 'i']) (by decide)
    have ha2 : matchTail dotOk ['K'] (ds ++ ['G', 'i', 'B']) = false := by
      rw [hassoc]
      exact ha
    have hb : matchTail dotOk ['K', 'i', 'B'] (ds ++ ['G', 'i', 'B']) = false :=
      matchTail_xiB_ne dotOk 'K' 'G' ds (by decide)
    have hc : matchTail dotOk ['M'] ((ds ++ ['G', 'i']) ++ ['B']) = false :=
      matchTail_ne_last dotOk 'M' 'B' [] (ds ++ ['G', 'i']) (by decide)
    have hc2 : matchTail dotOk ['M'] (ds ++ ['G', 'i', 'B']) = false := by
      rw [hassoc]
      exact hc
    have hd : matchTail dotOk ['M', 'i', 'B'] (ds ++ ['G', 'i', 'B']) = false :=
      matchTail_xiB_ne dotOk 'M' 'G' ds (by decide)
    have he : matchTail (fun c => c == ',') ['G'] ((ds ++ ['G', 'i']) ++ ['B']) = false :=
      matchTail_ne_last (fun c => c == ',') 'G' 'B' [] (ds ++ ['G', 'i']) (by decide)
    have he2 : matchTail (fun c => c == ',') ['G'] (ds ++ ['G', 'i', 'B']) = false := by
      rw [hassoc]
      exact he
    have hK : regexDotStarK (ds ++ ['G', 'i', 'B']) = false := by
      unfold regexDotStarK
      rw [ha2, hb]
      rfl
    have hM : regexDotStarM (ds ++ ['G', 'i', 'B']) = false := by
      unfold regexDotStarM
      rw [hc2, hd]
      rfl
    have hG : regexCommaStarG (ds ++ ['G', 'i', 'B']) = false := by
      unfold regexCommaStarG
      rw [he2, matchTail_append_self (fun c => c == ',') ds ['G', 'i', 'B'], hNotComma]
      rfl
    have hr := readNumber_digits_append ds hdig 'G' ['i', 'B'] (by decide)
    simp only [dehumanize, hK, hM, hG, Bool.false_eq_true, if_false, hr]

/-- Witness for C9 at the digit string 10: 10K and 10KiB give 10240, 10M and
10MiB give 10485760, 10G and 10GiB give the unscaled 10. -/
theorem c9_dehumanize_suffix_scaling_witness :
    dehumanize (['1', '0'] ++ ['K']) = digitsVal ['1', '0'] * 2 ^ 10 ∧
    dehumanize (['1', '0'] ++ ['K', 'i', 'B']) = digitsVal ['1', '0'] * 2 ^ 10 ∧
    dehumanize (['1', '0'] ++ ['M']) = digitsVal ['1', '0'] * 2 ^ 20 ∧
    dehumanize (['1', '0'] ++ ['M', 'i', 'B']) = digitsVal ['1', '0'] * 2 ^ 20 ∧
    dehumanize (['1', '0'] ++ ['G']) = digitsVal ['1', '0'] ∧
    dehumanize (['1', '0'] ++ ['G', 'i', 'B']) = digitsVal ['1', '0'] :=
  c9_dehumanize_suffix_scaling ['1', '0'] (by decide) (by decide) (by decide)

/-- Characterization of the fileRead loop: entered at iteration k with the
state the loop maintains (chunksCount = k, totalElapsed the sum of the first
k iteration times, position c * k) and enough fuel, it terminates, and the
result flag is true exactly when the timeout or budget check fires at some
iteration the stream survives to. -/
theorem fileReadLoop_char (T : Rat) (M : Int) (c L : Nat) (ds : Nat → Rat) (hc : 0 < c) :
    ∀ fuel k, c * k ≤ L → L / c + M.toNat + 2 ≤ k + fuel →
      ∃ b tr, fileReadLoop T M c L ds fuel k (k : Int) (grossSum ds k) (c * k) =
          some (b, tr) ∧
        (b = true ↔ ∃ j, k ≤ j ∧ j ≤ L / c ∧
          (T < grossSum ds j ∨ M < (j : Int))) := by
  intro fuel
  induction fuel with
  | zero =>
    intro k hk hfuel
    exfalso
    have hkle : k ≤ L / c :=
      (Nat.le_div_iff_mul_le hc).mpr (by rw [Nat.mul_comm]; exact hk)
    omega
  | succ fuel ih =>
    intro k hk hfuel
    have hkle : k ≤ L / c :=
      (Nat.le_div_iff_mul_le hc).mpr (by rw [Nat.mul_comm]; exact hk)
    by_cases hT : T < grossSum ds k
    · refine ⟨true, c * k, ?_, ?_⟩
      · simp only [fileReadLoop]
        rw [if_pos hT]
      · exact ⟨fun _ => ⟨k, le_refl k, hkle, Or.inl hT⟩, fun _ => rfl⟩
    · by_cases hM : M < (k : Int)
      · refine ⟨true, c * k, ?_, ?_⟩
        · simp only [fileReadLoop]
          rw [if_neg hT, if_pos hM]
        · exact ⟨fun _ => ⟨k, le_refl k, hkle, Or.inr hM⟩, fun _ => rfl⟩
      · have hck : c * (k + 1) = c * k + c := by ring
        by_cases hB : c * (k + 1) ≤ L
        · have hmin : min c (L - c * k) = c := by omega
          obtain ⟨b, tr, heq, hiff⟩ := ih (k + 1) hB (by omega)
          refine ⟨b, tr, ?_, ?_⟩
          · simp only [fileReadLoop]
            rw [if_neg hT, if_neg hM, if_pos hmin, hmin]
            have e1 : (k : Int) + 1 = ((k + 1 : Nat) : Int) := by push_cast; ring
            have e2 : c * k + c = c * (k + 1) := by ring
            have e3 : grossSum ds k + ds k = grossSum ds (k + 1) := rfl
            rw [e1, e2, e3]
            exact heq
          · constructor
            · intro hb
              obtain ⟨j, hj1, hj2, hj3⟩ := hiff.mp hb
              exact ⟨j, by omega, hj2, hj3⟩
            · rintro ⟨j, hj1, hj2, hj3⟩
              rcases Nat.eq_or_lt_of_le hj1 with rfl | hlt
              · rcases hj3 with h | h
                · exact absurd h hT
                · exact absurd h hM
              · exact hiff.mpr ⟨j, by omega, hj2, hj3⟩
        · have hdiv : L / c = k := by
            have h1 : L / c < k + 1 :=
              (Nat.div_lt_iff_lt_mul hc).mpr (by rw [Nat.mul_comm]; omega)
            omega
          have hmin : ¬ (min c (L - c * k) = c) := by omega
          refine ⟨false, c * k + min c (L - c * k), ?_, ?_⟩
          · simp only [fileReadLoop]
            rw [if_neg hT, if_neg hM, if_neg hmin]
          · constructor
            · intro hb
              exact absurd hb Bool.false_ne_true
            · rintro ⟨j, hj1, hj2, hj3⟩
              exfalso
              have hjk : j = k := by omega
              subst hjk
              rcases hj3 with h | h
              · exact hT h
              · exact hM h

/-- C8: fileRead returns true exactly when its loop is stopped by the
timeout check or the chunk-count budget check (a check firing at some
iteration j the stream survives to, i.e. j at most L / chunkSize); when the
source stream instead reaches end of file (or fails) before either limit is
hit, fileRead returns false and the process exits with status 1. -/
theorem c8_fileRead_true_iff_limit_stop (o : Options) (L : Nat) (ds : Nat → Rat)
    (hc : 0 < o.chunkSize) :
    ∃ b tr, fileRead o L ds = some (b, tr) ∧
      (b = true ↔ ∃ j, j ≤ L / o.chunkSize.toNat ∧
        (o.timeoutSeconds < grossSum ds j ∨ o.chunksMaxCount < (j : Int))) ∧
      (b = false → mainExitCode o L ds = some 1) := by
  have hc' : 0 < o.chunkSize.toNat := by omega
  obtain ⟨b, tr, heq, hiff⟩ := fileReadLoop_char o.timeoutSeconds o.chunksMaxCount
    o.chunkSize.toNat L ds hc' (fileReadFuel o L) 0
    (by simp) (by unfold fileReadFuel; omega)
  have heq' : fileRead o L ds = some (b, tr) := by
    unfold fileRead
    exact heq
  refine ⟨b, tr, heq', ?_, ?_⟩
  · constructor
    · intro hb
      obtain ⟨j, _, hj2, hj3⟩ := hiff.mp hb
      exact ⟨j, hj2, hj3⟩
    · rintro ⟨j, hj2, hj3⟩
      exact hiff.mpr ⟨j, Nat.zero_le j, hj2, hj3⟩
  · intro hb
    unfold mainExitCode
    rw [heq', hb]
    rfl

/-- Witness for C8 at chunk size 10, budget 3, timeout 1000, a 20-byte
source and one time unit per iteration: the stream ends before any limit. -/
theorem c8_fileRead_true_iff_limit_stop_witness :
    ∃ b tr,
      fileRead (Options.mk 10 3 "/dev/urandom" "/dev/null" true 100 1000 0) 20 (fun _ => 1) =
          some (b, tr) ∧
      (b = true ↔ ∃ j,
        j ≤ 20 / (Options.mk 10 3 "/dev/urandom" "/dev/null" true 100 1000 0).chunkSize.toNat ∧
        ((Options.mk 10 3 "/dev/urandom" "/dev/null" true 100 1000 0).timeoutSeconds <
            grossSum (fun _ => 1) j ∨
          (Options.mk 10 3 "/dev/urandom" "/dev/null" true 100 1000 0).chunksMaxCount <
            (j : Int))) ∧
      (b = false →
        mainExitCode (Options.mk 10 3 "/dev/urandom" "/dev/null" true 100 1000 0) 20
          (fun _ => 1) = some 1) :=
  c8_fileRead_true_iff_limit_stop (Options.mk 10 3 "/dev/urandom" "/dev/null" true 100 1000 0)
    20 (fun _ => 1) (by decide)

/-- C3 counterexample: with chunk size 10, chunk budget 0, requested size
100, a source holding the requested 100 bytes and a generous timeout, the
budget stops fileRead after it transferred only 10 of the 100 requested
bytes, yet fileRead returns true and the process exits with status 0: a
transfer shorter than requested is reported as success, refuting the claim
for this read operation. -/
theorem c3_fileRead_partial_reported_success :
    fileRead (Options.mk 10 0 "/dev/urandom" "/dev/null" true 100 1000 0) 100 (fun _ => 1) =
        some (true, 10) ∧
    (10 : Int) < (Options.mk 10 0 "/dev/urandom" "/dev/null" true 100 1000 0).querySize ∧
    mainExitCode (Options.mk 10 0 "/dev/urandom" "/dev/null" true 100 1000 0) 100 (fun _ => 1) =
        some 0 := by
  have h1 : fileRead (Options.mk 10 0 "/dev/urandom" "/dev/null" true 100 1000 0) 100
      (fun _ => 1) = fileReadLoop 1000 0 10 100 (fun _ => 1) 12 0 0 0 0 := rfl
  have h2 : mainExitCode (Options.mk 10 0 "/dev/urandom" "/dev/null" true 100 1000 0) 100
      (fun _ => 1) = (fileReadLoop 1000 0 10 100 (fun _ => 1) 12 0 0 0 0).map
        (fun r => if r.1 then (0 : Int) else 1) := rfl
  have h3 : fileReadLoop 1000 0 10 100 (fun _ => (1 : Rat)) 12 0 0 0 0 = some (true, 10) := by
    norm_num [fileReadLoop]
  refine ⟨?_, by decide, ?_⟩
  · rw [h1, h3]
  · rw [h2, h3]
    rfl

/-- The fileCopy loop terminates within its fuel and never reads past the
end of the source file. -/
theorem fileCopyLoop_total (T : Rat) (M : Int) (c L : Nat) (ds : Nat → Rat) (hc : 0 < c) :
    ∀ fuel k, c * k ≤ L → L / c + M.toNat + 2 ≤ k + fuel →
      ∃ tr, fileCopyLoop T M c L ds fuel k (k : Int) (grossSum ds k) (c * k) =
          some tr ∧ tr ≤ L := by
  intro fuel
  induction fuel with
  | zero =>
    intro k hk hfuel
    exfalso
    have hkle : k ≤ L / c :=
      (Nat.le_div_iff_mul_le hc).mpr (by rw [Nat.mul_comm]; exact hk)
    omega
  | succ fuel ih =>
    intro k hk hfuel
    by_cases hT : T < grossSum ds k
    · refine ⟨c * k, ?_, hk⟩
      simp only [fileCopyLoop]
      rw [if_pos hT]
    · by_cases hM : M < (k : Int)
      · refine ⟨c * k, ?_, hk⟩
        simp only [fileCopyLoop]
        rw [if_neg hT, if_pos hM]
      · have hck : c * (k + 1) = c * k + c := by ring
        by_cases hB : c * (k + 1) ≤ L
        · have hmin : min c (L - c * k) = c := by omega
          obtain ⟨tr, heq, hle⟩ := ih (k + 1) hB (by omega)
          refine ⟨tr, ?_, hle⟩
          simp only [fileCopyLoop]
          rw [if_neg hT, if_neg hM, if_pos hmin, hmin]
          have e1 : (k : Int) + 1 = ((k + 1 : Nat) : Int) := by push_cast; ring
          have e2 : c * k + c = c * (k + 1) := by ring
          have e3 : grossSum ds k + ds k = grossSum ds (k + 1) := rfl
          rw [e1, e2, e3]
          exact heq
        · have hmin : ¬ (min c (L - c * k) = c) := by omega
          refine ⟨c * k + min c (L - c * k), ?_, by omega⟩
          simp only [fileCopyLoop]
          rw [if_neg hT, if_neg hM, if_neg hmin]

/-- C3 amended: fileCopy reports success exactly when the copied byte count
equals the source file length (and it never copies more), so a fileCopy
transfer stopped short - by the timeout, the budget, or anything else - is
reported as failure; fileRead does not have this property: it reports
success exactly when the timeout or budget stopped its loop, even when
fewer bytes than requested were transferred. -/
theorem c3_fileCopy_partial_is_failure (o : Options) (L : Nat) (ds : Nat → Rat)
    (hc : 0 < o.chunkSize) :
    ∃ b tr, fileCopy o L ds = some (b, tr) ∧ tr ≤ L ∧ (b = true ↔ tr = L) := by
  have hpres : (processOptionsV1 (L : Int) o).chunkSize = o.chunkSize := by
    simp only [processOptionsV1]
    split_ifs <;> rfl
  have hc' : 0 < (processOptionsV1 (L : Int) o).chunkSize.toNat := by
    rw [hpres]; omega
  obtain ⟨tr, heq, hle⟩ := fileCopyLoop_total (processOptionsV1 (L : Int) o).timeoutSeconds
    (processOptionsV1 (L : Int) o).chunksMaxCount (processOptionsV1 (L : Int) o).chunkSize.toNat
    L ds hc'
    (L / (processOptionsV1 (L : Int) o).chunkSize.toNat +
      (processOptionsV1 (L : Int) o).chunksMaxCount.toNat + 2) 0 (by simp) (by omega)
  have heq2 : fileCopyLoop (processOptionsV1 (L : Int) o).timeoutSeconds
      (processOptionsV1 (L : Int) o).chunksMaxCount (processOptionsV1 (L : Int) o).chunkSize.toNat
      L ds
      (L / (processOptionsV1 (L : Int) o).chunkSize.toNat +
        (processOptionsV1 (L : Int) o).chunksMaxCount.toNat + 2) 0 0 0 0 = some tr := heq
  refine ⟨(L == tr), tr, ?_, hle, ?_⟩
  · simp only [fileCopy]
    rw [heq2]
    rfl
  · constructor
    · intro hb
      exact (eq_of_beq hb).symm
    · intro hb
      rw [hb]
      exact beq_self_eq_true L

/-- Witness for the amended C3: fileCopy with chunk size 10 and default
remaining options on a 25-byte source succeeds exactly when all 25 bytes are
copied. -/
theorem c3_fileCopy_partial_is_failure_witness :
    ∃ b tr, fileCopy (Options.mk 10 (-1) "/dev/urandom" "/dev/null" true (-1) (-1) 0) 25
        (fun _ => 1) = some (b, tr) ∧ tr ≤ 25 ∧ (b = true ↔ tr = 25) :=
  c3_fileCopy_partial_is_failure (Options.mk 10 (-1) "/dev/urandom" "/dev/null" true (-1) (-1) 0)
    25 (fun _ => 1) (by decide)
